import Mathlib

/-!
Shallow embedding of the proxy health & assignment engine of the `bsky`
repository (Go sources: `services/proxy-manager/health.go` and the proxy
service file containing `AssignProxy` / `selectProxyByStrategy` /
`GetAvailableProxies`).

The relational store (table `proxies`, the `proxy_id` pointer column of
`accounts`) and the Redis keys (`proxy_failures:<id>`,
`proxy_round_robin[:<type>]`, `proxy_health:<id>`, `proxy_alert:<id>:<ts>`)
are modelled as one explicit state record `SysState`.  SQL `NOW()` is an
explicit `now : Nat` parameter of every mutation that writes a timestamp.
-/

namespace Bsky

/-- `models.ProxyStatus`: `"active" | "inactive" | "error"`. -/
inductive ProxyStatus where
  | active
  | inactive
  | error
deriving DecidableEq, Repr

/-- `models.ProxyType` is a Go string type (values `"http"`, `"socks5"`). -/
abbrev ProxyType := String

/-- One row of the `proxies` table (the fields the engine reads/writes). -/
structure Proxy where
  id : Nat
  name : String
  ptype : ProxyType
  host : String
  port : Nat
  status : ProxyStatus
  healthCheckSuccess : Bool
  responseTimeMs : Nat
  lastHealthCheck : Option Nat
  updatedAt : Nat
deriving DecidableEq, Repr

/-- One row of the `accounts` table (only the fields the engine touches). -/
structure Account where
  id : Nat
  proxyId : Option Nat
  updatedAt : Nat
deriving DecidableEq, Repr

/-- Redis hash written at key `proxy_health:<id>` by `updateProxyHealthStatus`. -/
structure HealthSnap where
  success : Bool
  responseTime : Nat
  timestamp : Nat
  errMsg : String
deriving DecidableEq, Repr

/-- Redis hash written at key `proxy_alert:<id>:<ts>` by `notifyProxyFailure`. -/
structure Alert where
  proxyId : Nat
  proxyName : String
  proxyHost : String
  proxyPort : Nat
  failureCount : Nat
  timestamp : Nat
deriving DecidableEq, Repr

/-- The whole mutable state: the two SQL tables plus the Redis keys. -/
structure SysState where
  proxies : List Proxy
  accounts : List Account
  /-- Redis `proxy_failures:<id>` counters (TTL not modelled). -/
  failures : Nat → Option Nat
  /-- Redis `proxy_round_robin[:<type>]` cursors. -/
  cursors : String → Option Nat
  /-- Redis `proxy_health:<id>` snapshots. -/
  healthSnaps : Nat → Option HealthSnap
  /-- Redis `proxy_alert:<id>:<ts>` records, newest first. -/
  alerts : List Alert

/-- `UPDATE proxies SET ... WHERE id = pid`: apply `f` to every row whose
`id` equals `pid`. -/
def updateRows (pid : Nat) (f : Proxy → Proxy) (l : List Proxy) : List Proxy :=
  l.map (fun r => if r.id = pid then f r else r)

/-- `SELECT ... FROM proxies WHERE id = $1` (`GetProxy`'s query). -/
def getProxyById (st : SysState) (pid : Nat) : Option Proxy :=
  st.proxies.find? (fun r => r.id == pid)

/-- `updateProxyStatus` (same query in `health.go` and the proxy service):
`UPDATE proxies SET status = $1, updated_at = NOW() WHERE id = $2`. -/
def updateProxyStatus (st : SysState) (pid : Nat) (s : ProxyStatus) (now : Nat) : SysState :=
  { st with proxies := updateRows pid (fun p => { p with status := s, updatedAt := now }) st.proxies }

/-- The `SET` clause of the health update: `health_check_success = $1,
response_time_ms = $2, last_health_check = NOW(), updated_at = NOW()`. -/
def healthFields (success : Bool) (responseTimeMs now : Nat) (p : Proxy) : Proxy :=
  { p with
    healthCheckSuccess := success
    responseTimeMs := responseTimeMs
    lastHealthCheck := some now
    updatedAt := now }

/-- `updateProxyHealth` (proxy service): `UPDATE proxies SET
health_check_success = $1, response_time_ms = $2, last_health_check = NOW(),
updated_at = NOW() WHERE id = $3`. -/
def updateProxyHealth (st : SysState) (pid : Nat) (success : Bool) (responseTimeMs : Nat)
    (now : Nat) : SysState :=
  { st with proxies := updateRows pid (healthFields success responseTimeMs now) st.proxies }

/-- `updateProxyHealthStatus` (`health.go`): the same SQL UPDATE as
`updateProxyHealth`, followed by `HMSET proxy_health:<id>` with the probe
outcome (the 24h TTL is not modelled). -/
def updateProxyHealthStatus (st : SysState) (pid : Nat) (success : Bool)
    (responseTimeMs : Nat) (errMsg : String) (now : Nat) : SysState :=
  let st1 := updateProxyHealth st pid success responseTimeMs now
  { st1 with
    healthSnaps := fun j =>
      if j = pid then some ⟨success, responseTimeMs, now, errMsg⟩ else st1.healthSnaps j }

/-- `notifyProxyFailure` (`health.go`): record one alert hash at a fresh
`proxy_alert:<id>:<ts>` key carrying the proxy identity and the failure
count (the 7-day TTL is not modelled). -/
def notifyProxyFailure (st : SysState) (p : Proxy) (failures : Nat) (now : Nat) : SysState :=
  { st with alerts := ⟨p.id, p.name, p.host, p.port, failures, now⟩ :: st.alerts }

/-- `handleProxyFailure` (`health.go`): `INCR proxy_failures:<id>` (creating
the counter at 1 when absent); if the new count reaches `maxFailures`
(env `MAX_PROXY_FAILURES`, default 3) set the proxy status to `error`,
`DEL` the counter and emit one alert with the triggering count. -/
def handleProxyFailure (maxFailures : Nat) (st : SysState) (p : Proxy) (now : Nat) : SysState :=
  let n := (st.failures p.id).getD 0 + 1
  let st1 : SysState :=
    { st with failures := fun j => if j = p.id then some n else st.failures j }
  if n ≥ maxFailures then
    let st2 := updateProxyStatus st1 p.id .error now
    let st3 : SysState :=
      { st2 with failures := fun j => if j = p.id then none else st2.failures j }
    notifyProxyFailure st3 p n now
  else
    st1

/-- `handleProxySuccess` (`health.go`): `DEL proxy_failures:<id>`
unconditionally; if the probed proxy's status was `error`, set it back to
`active`. -/
def handleProxySuccess (st : SysState) (p : Proxy) (now : Nat) : SysState :=
  let st1 : SysState :=
    { st with failures := fun j => if j = p.id then none else st.failures j }
  if p.status = .error then updateProxyStatus st1 p.id .active now else st1

/-- Outcome of one network probe (`testProxyConnection` wrapped by
`checkProxyHealth`): success flag, wall-clock latency in ms, error text. -/
structure ProbeOutcome where
  success : Bool
  latencyMs : Nat
  errMsg : String

/-- `checkProxyHealth` (`health.go`) for one proxy, with the network probe
result supplied as data: first `updateProxyHealthStatus`, then on failure
`handleProxyFailure`, on success `handleProxySuccess`. -/
def checkProxyHealth (maxFailures : Nat) (st : SysState) (p : Proxy) (o : ProbeOutcome)
    (now : Nat) : SysState :=
  let st1 := updateProxyHealthStatus st p.id o.success o.latencyMs o.errMsg now
  if o.success then handleProxySuccess st1 p now else handleProxyFailure maxFailures st1 p now

/-- Stable insertion of `x` into `l` under the boolean order `le`. -/
def insertSorted (le : Proxy → Proxy → Bool) (x : Proxy) : List Proxy → List Proxy
  | [] => [x]
  | y :: ys => if le x y then x :: y :: ys else y :: insertSorted le x ys

/-- Insertion sort under the boolean order `le` (models SQL `ORDER BY`). -/
def sortBy (le : Proxy → Proxy → Bool) : List Proxy → List Proxy
  | [] => []
  | x :: xs => insertSorted le x (sortBy le xs)

/-- `ORDER BY last_health_check ASC NULLS FIRST` as a boolean order. -/
def lastCheckLe (a b : Proxy) : Bool :=
  match a.lastHealthCheck, b.lastHealthCheck with
  | none, _ => true
  | some _, none => false
  | some x, some y => decide (x ≤ y)

/-- `getActiveProxies` (`health.go`): `SELECT ... FROM proxies WHERE
status = 'active' ORDER BY last_health_check ASC NULLS FIRST`. -/
def getActiveProxies (st : SysState) : List Proxy :=
  sortBy lastCheckLe (st.proxies.filter (fun p => p.status == .active))

/-- `runHealthCheckCycle` (`health.go`): fetch the active proxies and probe
each one (the bounded-concurrency fan-out is modelled as a sequential fold
over the fetched snapshot; `oracle` supplies each probe's network result). -/
def runHealthCheckCycle (maxFailures : Nat) (oracle : Proxy → ProbeOutcome) (st : SysState)
    (now : Nat) : SysState :=
  (getActiveProxies st).foldl (fun s p => checkProxyHealth maxFailures s p (oracle p) now) st

/-- `n` scheduler ticks of `StartHealthCheckScheduler`: cycle `k` uses probe
results `oracles k` at time `times k`. -/
def sweepN (maxFailures : Nat) (oracles : Nat → Proxy → ProbeOutcome) (times : Nat → Nat) :
    Nat → SysState → SysState
  | 0, st => st
  | n + 1, st =>
      runHealthCheckCycle maxFailures (oracles n) (sweepN maxFailures oracles times n st) (times n)

/-- The `WHERE` clause shared by `GetAvailableProxies` and the three
SQL-based strategy selectors: `status = 'active' AND health_check_success =
true`, plus the optional `AND type = $1` filter. -/
def availableFilter (ptype : Option ProxyType) (p : Proxy) : Bool :=
  p.status == .active && p.healthCheckSuccess &&
    (match ptype with
     | none => true
     | some t => p.ptype == t)

/-- The candidate rows (in table order) of the availability query. -/
def availCands (st : SysState) (ptype : Option ProxyType) : List Proxy :=
  st.proxies.filter (availableFilter ptype)

/-- `GetAvailableProxies`: the candidate rows ordered by
`response_time_ms ASC`. -/
def GetAvailableProxies (st : SysState) (ptype : Option ProxyType) : List Proxy :=
  sortBy (fun a b => decide (a.responseTimeMs ≤ b.responseTimeMs)) (availCands st ptype)

/-- `SELECT COUNT(a.id) ... LEFT JOIN accounts a ON p.id = a.proxy_id`:
the number of accounts currently assigned to proxy `pid`. -/
def assignedCount (accounts : List Account) (pid : Nat) : Nat :=
  accounts.countP (fun a => a.proxyId == some pid)

/-- `ORDER BY key ASC LIMIT 1`: the first row of minimal key, as a left
fold (ties keep the earlier row). -/
def pickMinBy {κ : Type} [LinearOrder κ] (key : Proxy → κ) : List Proxy → Option Proxy
  | [] => none
  | x :: xs => some (xs.foldl (fun b y => if key y < key b then y else b) x)

/-- Error text shared by all four strategy selectors on an empty pool. -/
def noProxyMsg : String := "no available proxies found"

/-- `selectLeastUsedProxy`: among the available candidates, minimize
`(COUNT(a.id), response_time_ms)` lexicographically. -/
def selectLeastUsedProxy (st : SysState) (ptype : Option ProxyType) : Except String Nat :=
  match pickMinBy (fun p => toLex (assignedCount st.accounts p.id, p.responseTimeMs))
      (availCands st ptype) with
  | none => .error noProxyMsg
  | some p => .ok p.id

/-- `selectFastestProxy`: among the available candidates, minimize
`response_time_ms`. -/
def selectFastestProxy (st : SysState) (ptype : Option ProxyType) : Except String Nat :=
  match pickMinBy (fun p => p.responseTimeMs) (availCands st ptype) with
  | none => .error noProxyMsg
  | some p => .ok p.id

/-- `selectBestProxy` (the `auto` strategy): among the available candidates,
minimize `COUNT(a.id) * 100 + response_time_ms`. -/
def selectBestProxy (st : SysState) (ptype : Option ProxyType) : Except String Nat :=
  match pickMinBy (fun p => assignedCount st.accounts p.id * 100 + p.responseTimeMs)
      (availCands st ptype) with
  | none => .error noProxyMsg
  | some p => .ok p.id

/-- The Redis cursor key: `proxy_round_robin` plus `:<type>` when filtered. -/
def rrKey (ptype : Option ProxyType) : String :=
  match ptype with
  | none => "proxy_round_robin"
  | some t => "proxy_round_robin:" ++ t

/-- `selectRoundRobinProxy`: read the cursor (0 when the key is absent),
fetch `GetAvailableProxies`, error when empty, pick `pool[cursor mod N]`
and write back `(cursor + 1) mod N`. -/
def selectRoundRobinProxy (st : SysState) (ptype : Option ProxyType) :
    Except String (Nat × SysState) :=
  let key := rrKey ptype
  let currentIndex := (st.cursors key).getD 0
  let pool := GetAvailableProxies st ptype
  if h : pool.length = 0 then
    .error noProxyMsg
  else
    let selected := pool.get ⟨currentIndex % pool.length, Nat.mod_lt _ (Nat.pos_of_ne_zero h)⟩
    let nextIndex := (currentIndex + 1) % pool.length
    .ok (selected.id,
      { st with cursors := fun k => if k = key then some nextIndex else st.cursors k })

/-- `selectProxyByStrategy`: Go `switch` on the strategy string; every
unrecognized value falls through to `selectBestProxy` (auto). The three
SQL selectors leave the state unchanged; round-robin advances its cursor. -/
def selectProxyByStrategy (st : SysState) (strategy : String) (ptype : Option ProxyType) :
    Except String (Nat × SysState) :=
  if strategy = "least_used" then (selectLeastUsedProxy st ptype).map (fun pid => (pid, st))
  else if strategy = "fastest" then (selectFastestProxy st ptype).map (fun pid => (pid, st))
  else if strategy = "round_robin" then selectRoundRobinProxy st ptype
  else (selectBestProxy st ptype).map (fun pid => (pid, st))

/-- `ProxyAssignmentRequest`. -/
structure AssignReq where
  accountId : Nat
  proxyId : Option Nat
  proxyType : Option ProxyType
  strategy : String

/-- `ProxyAssignmentResponse`. -/
structure AssignResp where
  accountId : Nat
  proxyId : Nat
  proxyName : String
  proxyHost : String
  proxyPort : Nat
  assignedAt : Nat
deriving DecidableEq, Repr

/-- `UPDATE accounts SET proxy_id = $1, updated_at = NOW() WHERE id = $2`. -/
def assignAccountProxy (st : SysState) (accountId pid now : Nat) : SysState :=
  { st with
    accounts := st.accounts.map
      (fun a => if a.id = accountId then { a with proxyId := some pid, updatedAt := now } else a) }

/-- Error text of `GetProxy` on `sql.ErrNoRows`, wrapped by `AssignProxy`. -/
def notFoundExplicitMsg : String := "failed to get specified proxy: proxy not found"

/-- Error prefix `AssignProxy` adds to a strategy selection failure. -/
def selectFailPrefix : String := "failed to select proxy: "

/-- Error text when the strategy-selected id cannot be re-read. -/
def notFoundSelectedMsg : String := "failed to get selected proxy: proxy not found"

/-- `AssignProxy`: with an explicit proxy id, `GetProxy` it (no status or
health validation) and write the account's `proxy_id` pointer; otherwise
dispatch on the strategy (empty string defaults to `auto`), re-read the
selected proxy and write the pointer.  Error paths leave the state as it
was at the point of failure. -/
def AssignProxy (st : SysState) (req : AssignReq) (now : Nat) :
    Except String AssignResp × SysState :=
  match req.proxyId with
  | some pid =>
    match getProxyById st pid with
    | none => (.error notFoundExplicitMsg, st)
    | some p =>
      (.ok ⟨req.accountId, pid, p.name, p.host, p.port, now⟩,
       assignAccountProxy st req.accountId pid now)
  | none =>
    let strategy := if req.strategy = "" then "auto" else req.strategy
    match selectProxyByStrategy st strategy req.proxyType with
    | .error e => (.error (selectFailPrefix ++ e), st)
    | .ok (pid, st1) =>
      match getProxyById st1 pid with
      | none => (.error notFoundSelectedMsg, st1)
      | some p =>
        (.ok ⟨req.accountId, pid, p.name, p.host, p.port, now⟩,
         assignAccountProxy st1 req.accountId pid now)

/-- `n` consecutive round-robin selections: the list of selected proxy ids
(in order) and the final state.  A selection error stops the run. -/
def rrRun (st : SysState) (ptype : Option ProxyType) : Nat → List Nat × SysState
  | 0 => ([], st)
  | n + 1 =>
    match selectRoundRobinProxy st ptype with
    | .error _ => ([], st)
    | .ok (pid, st1) =>
      let r := rrRun st1 ptype n
      (pid :: r.1, r.2)

/-- `k` consecutive failed-probe tracker steps for proxy `p` (step `i` at
time `times i`), i.e. `k` invocations of `handleProxyFailure`. -/
def failSteps (maxFailures : Nat) (p : Proxy) (times : Nat → Nat) :
    Nat → SysState → SysState
  | 0, st => st
  | k + 1, st => handleProxyFailure maxFailures (failSteps maxFailures p times k st) p (times k)

/-! ## General lemmas about the embedded primitives -/

theorem updateRows_map_id {pid : Nat} {f : Proxy → Proxy} (hf : ∀ r, (f r).id = r.id)
    (l : List Proxy) : (updateRows pid f l).map Proxy.id = l.map Proxy.id := by
  induction l with
  | nil => rfl
  | cons r rs ih =>
    simp only [updateRows, List.map_cons, List.map_map] at ih ⊢
    by_cases h : r.id = pid
    · simp [h, hf r, ih]
    · simp [h, ih]

theorem find?_updateRows_ne {pid qid : Nat} {f : Proxy → Proxy} (hne : pid ≠ qid)
    (hf : ∀ r, (f r).id = r.id) (l : List Proxy) :
    (updateRows qid f l).find? (fun r => r.id == pid) = l.find? (fun r => r.id == pid) := by
  induction l with
  | nil => rfl
  | cons r rs ih =>
    have hup : updateRows qid f (r :: rs) =
        (if r.id = qid then f r else r) :: updateRows qid f rs := rfl
    rw [hup]
    by_cases h : r.id = qid
    · have h1 : ((f r).id == pid) = false := by
        rw [hf r, h]
        exact beq_eq_false_iff_ne.mpr fun hc => hne hc.symm
      have h2 : (r.id == pid) = false := by
        rw [h]
        exact beq_eq_false_iff_ne.mpr fun hc => hne hc.symm
      rw [if_pos h, List.find?_cons, List.find?_cons]
      simp only [h1, h2]
      exact ih
    · rw [if_neg h, List.find?_cons, List.find?_cons]
      cases hb : (r.id == pid) with
      | true => simp only [hb]
      | false =>
        simp only [hb]
        exact ih

theorem updateRows_absorb {pid : Nat} {f g : Proxy → Proxy}
    (hf : ∀ r, (f r).id = r.id) (habs : ∀ r, g (f r) = g r) (l : List Proxy) :
    updateRows pid g (updateRows pid f l) = updateRows pid g l := by
  induction l with
  | nil => rfl
  | cons r rs ih =>
    simp only [updateRows, List.map_cons] at ih ⊢
    by_cases h : r.id = pid
    · simp [h, hf r, habs r, ih]
    · simp [h, ih]

theorem insertSorted_perm (le : Proxy → Proxy → Bool) (x : Proxy) (l : List Proxy) :
    (insertSorted le x l).Perm (x :: l) := by
  induction l with
  | nil => exact List.Perm.refl _
  | cons y ys ih =>
    simp only [insertSorted]
    by_cases h : le x y
    · rw [if_pos h]
    · rw [if_neg h]
      exact (ih.cons y).trans (List.Perm.swap x y ys)

theorem sortBy_perm (le : Proxy → Proxy → Bool) (l : List Proxy) : (sortBy le l).Perm l := by
  induction l with
  | nil => exact List.Perm.refl _
  | cons x xs ih =>
    exact (insertSorted_perm le x (sortBy le xs)).trans (ih.cons x)

theorem mem_sortBy {le : Proxy → Proxy → Bool} {l : List Proxy} {p : Proxy} :
    p ∈ sortBy le l ↔ p ∈ l :=
  (sortBy_perm le l).mem_iff

theorem minFold_mem {κ : Type} [LinearOrder κ] (key : Proxy → κ) :
    ∀ (l : List Proxy) (b : Proxy),
      l.foldl (fun b y => if key y < key b then y else b) b ∈ b :: l := by
  intro l
  induction l with
  | nil => intro b; simp
  | cons y ys ih =>
    intro b
    simp only [List.foldl_cons]
    rcases List.mem_cons.mp (ih (if key y < key b then y else b)) with h | h
    · rw [h]
      by_cases hlt : key y < key b
      · simp [hlt]
      · simp [hlt]
    · simp [h]

theorem minFold_le {κ : Type} [LinearOrder κ] (key : Proxy → κ) :
    ∀ (l : List Proxy) (b : Proxy) (y : Proxy), y ∈ b :: l →
      key (l.foldl (fun b y => if key y < key b then y else b) b) ≤ key y := by
  intro l
  induction l with
  | nil =>
    intro b y hy
    rcases List.mem_cons.mp hy with h | h
    · simp [h]
    · simp at h
  | cons z zs ih =>
    intro b y hy
    simp only [List.foldl_cons]
    have hstep : key (if key z < key b then z else b) ≤ key b ∧
        key (if key z < key b then z else b) ≤ key z := by
      by_cases hlt : key z < key b
      · exact ⟨by simp [hlt]; exact le_of_lt hlt, by simp [hlt]⟩
      · exact ⟨by simp [hlt], by simp [hlt]; exact le_of_not_lt hlt⟩
    rcases List.mem_cons.mp hy with h | h
    · subst h
      exact le_trans (ih _ _ (List.mem_cons_self _ _)) hstep.1
    · rcases List.mem_cons.mp h with h2 | h2
      · subst h2
        exact le_trans (ih _ _ (List.mem_cons_self _ _)) hstep.2
      · exact ih _ y (List.mem_cons_of_mem _ h2)

theorem pickMinBy_eq_some {κ : Type} [LinearOrder κ] {key : Proxy → κ} {l : List Proxy}
    {p : Proxy} (h : pickMinBy key l = some p) :
    p ∈ l ∧ ∀ q ∈ l, key p ≤ key q := by
  cases l with
  | nil => simp [pickMinBy] at h
  | cons x xs =>
    simp only [pickMinBy, Option.some.injEq] at h
    subst h
    exact ⟨minFold_mem key xs x, fun q hq => minFold_le key xs x q hq⟩

/-! ## C9: idempotence of `updateHealth` -/

/-- **C9.** Calling `updateProxyHealthStatus` twice in succession with the
same proxy id, success flag and latency leaves the whole state — in
particular the Registry's proxy row — exactly as a single call does: the
update is a field-level SET whose written fields do not depend on the
previous row.  Stated in absorbing form over the two calls' clock values
(`now1`, `now2`); specializing `now1 = now2` gives literal idempotence.
The proxy service's plain SQL variant `updateProxyHealth` satisfies the
same law (second conjunct). -/
theorem updateHealth_idempotent (st : SysState) (pid : Nat) (success : Bool)
    (responseTimeMs : Nat) (errMsg : String) (now1 now2 : Nat) :
    updateProxyHealthStatus (updateProxyHealthStatus st pid success responseTimeMs errMsg now1)
        pid success responseTimeMs errMsg now2 =
      updateProxyHealthStatus st pid success responseTimeMs errMsg now2 ∧
    updateProxyHealth (updateProxyHealth st pid success responseTimeMs now1)
        pid success responseTimeMs now2 =
      updateProxyHealth st pid success responseTimeMs now2 := by
  obtain ⟨ps, acs, fl, cur, hs, al⟩ := st
  have hrows : updateRows pid (healthFields success responseTimeMs now2)
      (updateRows pid (healthFields success responseTimeMs now1) ps) =
      updateRows pid (healthFields success responseTimeMs now2) ps :=
    @updateRows_absorb pid (healthFields success responseTimeMs now1)
      (healthFields success responseTimeMs now2) (fun _ => rfl) (fun _ => rfl) ps
  constructor
  · simp only [updateProxyHealthStatus, updateProxyHealth, SysState.mk.injEq]
    refine ⟨hrows, by trivial, by trivial, by trivial, ?_, by trivial⟩
    funext j
    by_cases h : j = pid <;> simp [h]
  · simp only [updateProxyHealth, SysState.mk.injEq]
    exact ⟨hrows, by trivial, by trivial, by trivial, by trivial, by trivial⟩

/-! ## C1: quarantine after `maxProxyFailures` consecutive failures -/

theorem handleProxyFailure_below (m : Nat) (st : SysState) (p : Proxy) (now : Nat) {k : Nat}
    (hc : (st.failures p.id).getD 0 = k) (hlt : k + 1 < m) :
    (handleProxyFailure m st p now).failures p.id = some (k + 1) ∧
    (handleProxyFailure m st p now).proxies = st.proxies ∧
    (handleProxyFailure m st p now).alerts = st.alerts := by
  unfold handleProxyFailure
  rw [hc, if_neg (by omega)]
  refine ⟨?_, rfl, rfl⟩
  simp

theorem handleProxyFailure_quarantine (m : Nat) (st : SysState) (p : Proxy) (now : Nat)
    {k : Nat} (hc : (st.failures p.id).getD 0 = k) (hge : k + 1 ≥ m) :
    (handleProxyFailure m st p now).failures p.id = none ∧
    (handleProxyFailure m st p now).proxies =
      updateRows p.id (fun q => { q with status := .error, updatedAt := now }) st.proxies ∧
    (handleProxyFailure m st p now).alerts =
      ⟨p.id, p.name, p.host, p.port, k + 1, now⟩ :: st.alerts := by
  unfold handleProxyFailure notifyProxyFailure updateProxyStatus
  rw [hc, if_pos (by omega)]
  refine ⟨?_, rfl, rfl⟩
  simp

theorem failSteps_below (m : Nat) (st : SysState) (p : Proxy) (times : Nat → Nat)
    (hc : st.failures p.id = none) :
    ∀ k, k < m →
      ((failSteps m p times k st).failures p.id).getD 0 = k ∧
      (failSteps m p times k st).proxies = st.proxies ∧
      (failSteps m p times k st).alerts = st.alerts := by
  intro k
  induction k with
  | zero =>
    intro _
    simp [failSteps, hc]
  | succ k ih =>
    intro hk
    have ihk := ih (by omega)
    have hstep := handleProxyFailure_below m (failSteps m p times k st) p (times k) ihk.1 hk
    refine ⟨?_, ?_, ?_⟩
    · show ((handleProxyFailure m (failSteps m p times k st) p (times k)).failures p.id).getD 0 = k + 1
      rw [hstep.1]
      rfl
    · show (handleProxyFailure m (failSteps m p times k st) p (times k)).proxies = st.proxies
      rw [hstep.2.1, ihk.2.1]
    · show (handleProxyFailure m (failSteps m p times k st) p (times k)).alerts = st.alerts
      rw [hstep.2.2, ihk.2.2]

/-- **C1.** Starting from an absent failure counter, `maxProxyFailures`
consecutive failed probes (`m ≥ 1` invocations of `handleProxyFailure`)
leave the proxy's status `error` (every Registry row with that id has its
status set to `error` by the final step), record exactly one new alert —
carrying the proxy identity and the failure count `m` that triggered
quarantine — and delete the failure counter, so it is absent afterwards. -/
theorem quarantine_after_maxFailures (m : Nat) (st : SysState) (p : Proxy)
    (times : Nat → Nat) (hm : 1 ≤ m) (hc : st.failures p.id = none) :
    (failSteps m p times m st).failures p.id = none ∧
    (failSteps m p times m st).alerts =
      ⟨p.id, p.name, p.host, p.port, m, times (m - 1)⟩ :: st.alerts ∧
    (failSteps m p times m st).proxies =
      updateRows p.id (fun q => { q with status := .error, updatedAt := times (m - 1) })
        st.proxies := by
  cases m with
  | zero => omega
  | succ n =>
    have hbel := failSteps_below (n + 1) st p times hc n (by omega)
    have hq := handleProxyFailure_quarantine (n + 1) (failSteps (n + 1) p times n st) p
      (times n) hbel.1 (by omega)
    refine ⟨hq.1, ?_, ?_⟩
    · show (handleProxyFailure (n + 1) (failSteps (n + 1) p times n st) p (times n)).alerts = _
      rw [hq.2.2, hbel.2.2]
      rfl
    · show (handleProxyFailure (n + 1) (failSteps (n + 1) p times n st) p (times n)).proxies = _
      rw [hq.2.1, hbel.2.1]
      rfl

/-! ## C2: a single success un-quarantines and clears the counter -/

/-- **C2.** On a successful probe `handleProxySuccess` deletes the proxy's
failure counter unconditionally — whatever its previous value — and, when
the probed proxy's status is `error`, sets every Registry row with that id
back to `active`; when the status is not `error` the Registry is untouched.
A single success therefore suffices, regardless of how many failures were
previously recorded. -/
theorem success_resets_and_recovers (st : SysState) (p : Proxy) (now : Nat) :
    (handleProxySuccess st p now).failures p.id = none ∧
    (p.status = .error →
      (handleProxySuccess st p now).proxies =
        updateRows p.id (fun q => { q with status := .active, updatedAt := now }) st.proxies) ∧
    (p.status ≠ .error → (handleProxySuccess st p now).proxies = st.proxies) := by
  unfold handleProxySuccess updateProxyStatus
  by_cases h : p.status = .error
  · rw [if_pos h]
    refine ⟨by simp, fun _ => rfl, fun hn => absurd h hn⟩
  · rw [if_neg h]
    exact ⟨by simp, fun he => absurd he h, fun _ => rfl⟩

/-! ## C4, C6, C7, C10: the assignment strategies -/

theorem availCands_healthy {st : SysState} {ptype : Option ProxyType} {p : Proxy}
    (h : p ∈ availCands st ptype) : p.status = .active ∧ p.healthCheckSuccess = true := by
  have hf := (List.mem_filter.mp h).2
  simp only [availableFilter, Bool.and_eq_true, beq_iff_eq] at hf
  exact ⟨hf.1.1, hf.1.2⟩

/-- **C4.** The `auto` (default) strategy selects, among the proxies with
`status = active` and `health_check_success = true` (after the optional
type filter), one minimizing `(count of assigned identities) * 100 +
response_time_ms`.  In particular (see the witness) with candidate A at
0 assignments / 250 ms and candidate B at 1 assignment / 50 ms, B
(score 150) is selected over A (score 250). -/
theorem autoStrategy_minimizes (st : SysState) (ptype : Option ProxyType) (pid : Nat)
    (h : selectBestProxy st ptype = .ok pid) :
    ∃ p ∈ availCands st ptype, p.id = pid ∧
      ∀ q ∈ availCands st ptype,
        assignedCount st.accounts p.id * 100 + p.responseTimeMs ≤
          assignedCount st.accounts q.id * 100 + q.responseTimeMs := by
  unfold selectBestProxy at h
  cases hp : pickMinBy (fun p => assignedCount st.accounts p.id * 100 + p.responseTimeMs)
      (availCands st ptype) with
  | none =>
    rw [hp] at h
    exact absurd h (by simp)
  | some p =>
    rw [hp] at h
    simp only [Except.ok.injEq] at h
    obtain ⟨hmem, hmin⟩ := pickMinBy_eq_some hp
    exact ⟨p, hmem, h, hmin⟩

/-- **C6.** The `least_used` strategy draws only from proxies with
`status = active` and `health_check_success = true` (optionally
type-filtered) — so it can never return a proxy with a failed health check,
even one with zero assigned identities — and the returned proxy minimizes
`(count of assigned identities, response_time_ms)` lexicographically over
the candidates. -/
theorem leastUsed_healthy_and_minimal (st : SysState) (ptype : Option ProxyType) (pid : Nat)
    (h : selectLeastUsedProxy st ptype = .ok pid) :
    ∃ p ∈ availCands st ptype, p.id = pid ∧ p.status = .active ∧
      p.healthCheckSuccess = true ∧
      ∀ q ∈ availCands st ptype,
        assignedCount st.accounts p.id < assignedCount st.accounts q.id ∨
          (assignedCount st.accounts p.id = assignedCount st.accounts q.id ∧
            p.responseTimeMs ≤ q.responseTimeMs) := by
  unfold selectLeastUsedProxy at h
  cases hp : pickMinBy (fun p => toLex (assignedCount st.accounts p.id, p.responseTimeMs))
      (availCands st ptype) with
  | none =>
    rw [hp] at h
    exact absurd h (by simp)
  | some p =>
    rw [hp] at h
    simp only [Except.ok.injEq] at h
    obtain ⟨hmem, hmin⟩ := pickMinBy_eq_some hp
    refine ⟨p, hmem, h, (availCands_healthy hmem).1, (availCands_healthy hmem).2, ?_⟩
    intro q hq
    exact (Prod.Lex.le_iff _ _).mp (hmin q hq)

/-- **C7.** Whenever the candidate pool of active, health-check-passing
proxies (after the optional type filter) is empty, every one of the four
strategies — `least_used`, `fastest`, `auto`/`selectBestProxy`, and
`round_robin` — returns the `no available proxies found` error; none
silently returns a default proxy id. -/
theorem empty_pool_errors (st : SysState) (ptype : Option ProxyType)
    (h : availCands st ptype = []) :
    selectLeastUsedProxy st ptype = .error noProxyMsg ∧
    selectFastestProxy st ptype = .error noProxyMsg ∧
    selectBestProxy st ptype = .error noProxyMsg ∧
    selectRoundRobinProxy st ptype = .error noProxyMsg := by
  have hpool : GetAvailableProxies st ptype = [] := by
    unfold GetAvailableProxies
    rw [h]
    rfl
  refine ⟨?_, ?_, ?_, ?_⟩
  · unfold selectLeastUsedProxy
    rw [h]
    rfl
  · unfold selectFastestProxy
    rw [h]
    rfl
  · unfold selectBestProxy
    rw [h]
    rfl
  · simp [selectRoundRobinProxy, hpool]

/-- **C10.** Every strategy string other than `least_used`, `fastest` and
`round_robin` — including `manual`, the empty string and any unrecognized
value — dispatches to the combined-score `auto` selection
(`selectBestProxy`); no strategy value is ever rejected as invalid. -/
theorem unknown_strategy_defaults_to_auto (st : SysState) (strategy : String)
    (ptype : Option ProxyType) (h1 : strategy ≠ "least_used") (h2 : strategy ≠ "fastest")
    (h3 : strategy ≠ "round_robin") :
    selectProxyByStrategy st strategy ptype =
      (selectBestProxy st ptype).map (fun pid => (pid, st)) := by
  unfold selectProxyByStrategy
  rw [if_neg h1, if_neg h2, if_neg h3]

/-! ## C8: explicit (manual) assignment bypasses strategy selection -/

/-- **C8.** When `AssignProxy` is called with an explicit proxy id, strategy
selection is bypassed: for every proxy row that exists in the Registry —
with no constraint on its status or health flag — the call succeeds and the
identity's `proxy_id` pointer is written to that proxy
(`assignAccountProxy`); for a nonexistent id the call fails with the
not-found error and the state (hence the identity's pointer) is unchanged. -/
theorem assignProxy_explicit (st : SysState) (aid pid now : Nat) (ptype : Option ProxyType)
    (strategy : String) :
    (∀ p, getProxyById st pid = some p →
      (AssignProxy st ⟨aid, some pid, ptype, strategy⟩ now).1 =
          .ok ⟨aid, pid, p.name, p.host, p.port, now⟩ ∧
        (AssignProxy st ⟨aid, some pid, ptype, strategy⟩ now).2 =
          assignAccountProxy st aid pid now) ∧
    (getProxyById st pid = none →
      (AssignProxy st ⟨aid, some pid, ptype, strategy⟩ now).1 = .error notFoundExplicitMsg ∧
      (AssignProxy st ⟨aid, some pid, ptype, strategy⟩ now).2 = st) := by
  constructor
  · intro p hp
    simp only [AssignProxy, hp]
    exact ⟨by trivial, by trivial⟩
  · intro hn
    simp only [AssignProxy, hn]
    exact ⟨by trivial, by trivial⟩

/-! ## C3: what the sweep does to a quarantined (`status = error`) proxy -/

theorem mem_getActiveProxies {s : SysState} {q : Proxy} :
    q ∈ getActiveProxies s ↔ q ∈ s.proxies ∧ q.status = .active := by
  unfold getActiveProxies
  rw [mem_sortBy, List.mem_filter]
  simp only [beq_iff_eq]

theorem ids_handleProxyFailure (m : Nat) (s : SysState) (q : Proxy) (now : Nat) :
    (handleProxyFailure m s q now).proxies.map Proxy.id = s.proxies.map Proxy.id := by
  simp only [handleProxyFailure, notifyProxyFailure, updateProxyStatus]
  split
  · exact @updateRows_map_id q.id
      (fun p => { p with status := .error, updatedAt := now }) (fun _ => rfl) s.proxies
  · rfl

theorem ids_handleProxySuccess (s : SysState) (q : Proxy) (now : Nat) :
    (handleProxySuccess s q now).proxies.map Proxy.id = s.proxies.map Proxy.id := by
  simp only [handleProxySuccess, updateProxyStatus]
  split
  · exact @updateRows_map_id q.id
      (fun p => { p with status := .active, updatedAt := now }) (fun _ => rfl) s.proxies
  · rfl

theorem ids_checkProxyHealth (m : Nat) (s : SysState) (q : Proxy) (o : ProbeOutcome)
    (now : Nat) :
    (checkProxyHealth m s q o now).proxies.map Proxy.id = s.proxies.map Proxy.id := by
  simp only [checkProxyHealth, updateProxyHealthStatus, updateProxyHealth]
  split
  · exact (ids_handleProxySuccess _ q now).trans
      (@updateRows_map_id q.id (healthFields o.success o.latencyMs now) (fun _ => rfl) s.proxies)
  · exact (ids_handleProxyFailure m _ q now).trans
      (@updateRows_map_id q.id (healthFields o.success o.latencyMs now) (fun _ => rfl) s.proxies)

theorem find?_handleProxyFailure_ne {pid : Nat} (m : Nat) (s : SysState) (q : Proxy)
    (now : Nat) (hne : pid ≠ q.id) :
    (handleProxyFailure m s q now).proxies.find? (fun r => r.id == pid) =
      s.proxies.find? (fun r => r.id == pid) := by
  simp only [handleProxyFailure, notifyProxyFailure, updateProxyStatus]
  split
  · exact @find?_updateRows_ne pid q.id
      (fun p => { p with status := .error, updatedAt := now }) hne (fun _ => rfl) s.proxies
  · rfl

theorem find?_handleProxySuccess_ne {pid : Nat} (s : SysState) (q : Proxy) (now : Nat)
    (hne : pid ≠ q.id) :
    (handleProxySuccess s q now).proxies.find? (fun r => r.id == pid) =
      s.proxies.find? (fun r => r.id == pid) := by
  simp only [handleProxySuccess, updateProxyStatus]
  split
  · exact @find?_updateRows_ne pid q.id
      (fun p => { p with status := .active, updatedAt := now }) hne (fun _ => rfl) s.proxies
  · rfl

theorem find?_checkProxyHealth_ne {pid : Nat} (m : Nat) (s : SysState) (q : Proxy)
    (o : ProbeOutcome) (now : Nat) (hne : pid ≠ q.id) :
    (checkProxyHealth m s q o now).proxies.find? (fun r => r.id == pid) =
      s.proxies.find? (fun r => r.id == pid) := by
  simp only [checkProxyHealth, updateProxyHealthStatus, updateProxyHealth]
  split
  · exact (find?_handleProxySuccess_ne _ q now hne).trans
      (@find?_updateRows_ne pid q.id (healthFields o.success o.latencyMs now) hne
        (fun _ => rfl) s.proxies)
  · exact (find?_handleProxyFailure_ne m _ q now hne).trans
      (@find?_updateRows_ne pid q.id (healthFields o.success o.latencyMs now) hne
        (fun _ => rfl) s.proxies)

theorem sweep_fold_preserves (pid : Nat) (m : Nat) (oracle : Proxy → ProbeOutcome)
    (now : Nat) :
    ∀ (qs : List Proxy) (s : SysState), (∀ q ∈ qs, q.id ≠ pid) →
      ((qs.foldl (fun s q => checkProxyHealth m s q (oracle q) now) s).proxies.find?
          (fun r => r.id == pid) = s.proxies.find? (fun r => r.id == pid)) ∧
      ((qs.foldl (fun s q => checkProxyHealth m s q (oracle q) now) s).proxies.map Proxy.id =
        s.proxies.map Proxy.id) := by
  intro qs
  induction qs with
  | nil =>
    intro s _
    exact ⟨rfl, rfl⟩
  | cons q qs ih =>
    intro s hq
    have hrest := ih (checkProxyHealth m s q (oracle q) now)
      (fun r hr => hq r (List.mem_cons_of_mem _ hr))
    have hne : pid ≠ q.id := fun hc => hq q (List.mem_cons_self _ _) hc.symm
    exact ⟨hrest.1.trans (find?_checkProxyHealth_ne m s q (oracle q) now hne),
      hrest.2.trans (ids_checkProxyHealth m s q (oracle q) now)⟩

theorem cycle_preserves_error_row (m : Nat) (oracle : Proxy → ProbeOutcome) (now : Nat)
    (s : SysState) (p : Proxy) (hnd : (s.proxies.map Proxy.id).Nodup)
    (hfind : getProxyById s p.id = some p) (he : p.status = .error) :
    getProxyById (runHealthCheckCycle m oracle s now) p.id = some p ∧
    ((runHealthCheckCycle m oracle s now).proxies.map Proxy.id).Nodup := by
  have hpmem : p ∈ s.proxies := List.mem_of_find?_eq_some hfind
  have hqs : ∀ q ∈ getActiveProxies s, q.id ≠ p.id := by
    intro q hq hc
    have hq2 := mem_getActiveProxies.mp hq
    have : q = p := List.inj_on_of_nodup_map hnd hq2.1 hpmem hc
    rw [this, he] at hq2
    exact absurd hq2.2 (by simp)
  have hfold := sweep_fold_preserves p.id m oracle now (getActiveProxies s) s hqs
  refine ⟨?_, ?_⟩
  · show (runHealthCheckCycle m oracle s now).proxies.find? (fun r => r.id == p.id) = some p
    rw [show (runHealthCheckCycle m oracle s now).proxies =
        ((getActiveProxies s).foldl (fun s q => checkProxyHealth m s q (oracle q) now)
          s).proxies from rfl, hfold.1]
    exact hfind
  · rw [show (runHealthCheckCycle m oracle s now).proxies =
        ((getActiveProxies s).foldl (fun s q => checkProxyHealth m s q (oracle q) now)
          s).proxies from rfl, hfold.2]
    exact hnd

/-- **C3 (refuted: code bug).** The spec promises that a quarantined proxy
"silently re-enters the pool on its next successful probe with no manual
action required"; but `getActiveProxies` — the only source of probe targets
in `runHealthCheckCycle` — selects rows with `status = 'active'` only.  A
proxy whose status is `error` is therefore never probed by any number of
sweep cycles (it is excluded from every cycle's probe list), its Registry
row persists unchanged, and the recovery branch of `handleProxySuccess`
can never fire for it: the automatic sweep alone never reaches a state in
which the quarantined proxy is probed again. -/
theorem quarantined_proxy_never_reprobed (m : Nat) (oracles : Nat → Proxy → ProbeOutcome)
    (times : Nat → Nat) (st : SysState) (p : Proxy)
    (hnd : (st.proxies.map Proxy.id).Nodup)
    (hfind : getProxyById st p.id = some p) (he : p.status = .error) :
    ∀ n, getProxyById (sweepN m oracles times n st) p.id = some p ∧
      p ∉ getActiveProxies (sweepN m oracles times n st) := by
  have hmain : ∀ n, getProxyById (sweepN m oracles times n st) p.id = some p ∧
      ((sweepN m oracles times n st).proxies.map Proxy.id).Nodup := by
    intro n
    induction n with
    | zero => exact ⟨hfind, hnd⟩
    | succ n ih =>
      exact cycle_preserves_error_row m (oracles n) (times n) _ p ih.2 ih.1 he
  intro n
  refine ⟨(hmain n).1, fun hc => ?_⟩
  have := (mem_getActiveProxies.mp hc).2
  rw [he] at this
  exact absurd this (by simp)

/-! ## C5: round robin visits the whole pool before repeating -/

theorem GetAvailableProxies_congr {s1 s2 : SysState} (ptype : Option ProxyType)
    (h : s1.proxies = s2.proxies) :
    GetAvailableProxies s1 ptype = GetAvailableProxies s2 ptype := by
  unfold GetAvailableProxies availCands
  rw [h]

theorem getId_congr (P : List Proxy) {i j : Nat} (hi : i < P.length) (hj : j < P.length)
    (h : i = j) : (P.get ⟨i, hi⟩).id = (P.get ⟨j, hj⟩).id := by
  subst h
  rfl

theorem selectRoundRobin_step (ptype : Option ProxyType) (s : SysState) (P : List Proxy)
    (hP : GetAvailableProxies s ptype = P) (hN : P.length ≠ 0) (c : Nat)
    (hc : (s.cursors (rrKey ptype)).getD 0 = c) :
    selectRoundRobinProxy s ptype =
      .ok ((P.get ⟨c % P.length, Nat.mod_lt _ (Nat.pos_of_ne_zero hN)⟩).id,
        { s with cursors := fun k =>
            if k = rrKey ptype then some ((c + 1) % P.length) else s.cursors k }) := by
  subst hP
  simp only [selectRoundRobinProxy, hc]
  rw [dif_neg hN]

theorem range_map_succ_form (g : Nat → Nat) (n : Nat) :
    (List.range (n + 1)).map g = g 0 :: (List.range n).map (fun i => g (i + 1)) := by
  rw [List.range_succ_eq_map, List.map_cons, List.map_map]
  rfl

theorem rrRun_formula (ptype : Option ProxyType) (P : List Proxy) (hN : P.length ≠ 0) :
    ∀ (n : Nat) (s : SysState) (c : Nat),
      GetAvailableProxies s ptype = P →
      (s.cursors (rrKey ptype)).getD 0 = c →
      (rrRun s ptype n).1 = (List.range n).map
        (fun i => (P.get ⟨(c + i) % P.length,
          Nat.mod_lt _ (Nat.pos_of_ne_zero hN)⟩).id) := by
  intro n
  induction n with
  | zero =>
    intro s c _ _
    rfl
  | succ n ih =>
    intro s c hP hc
    have hsel := selectRoundRobin_step ptype s P hP hN c hc
    simp only [rrRun, hsel]
    have hP1 : GetAvailableProxies
        { s with cursors := fun k =>
            if k = rrKey ptype then some ((c + 1) % P.length) else s.cursors k } ptype = P :=
      (GetAvailableProxies_congr ptype rfl).trans hP
    have hc1 : (SysState.cursors
        { s with cursors := fun k =>
            if k = rrKey ptype then some ((c + 1) % P.length) else s.cursors k }
        (rrKey ptype)).getD 0 = (c + 1) % P.length := by
      simp
    have htl := ih _ ((c + 1) % P.length) hP1 hc1
    rw [htl, range_map_succ_form, List.cons.injEq]
    constructor
    · exact getId_congr _ _ _ (by rw [Nat.add_zero])
    · refine List.map_congr_left ?_
      intro i _
      refine getId_congr _ _ _ ?_
      rw [Nat.mod_add_mod]
      congr 1
      omega

/-- **C5.** Under the `round_robin` strategy over a stable pool (the
selection itself only advances the Redis cursor, so across consecutive
calls the pool membership and latency ordering are literally unchanged),
`N = pool.length` consecutive assignments produce a permutation of the
pool's proxy ids: every proxy is visited exactly once — all `N` are visited
before any repeats.  Each call picks `pool[cursor mod N]` (cursor `0` when
the key is absent) and writes back `(cursor + 1) mod N`, per
`selectRoundRobinProxy`. -/
theorem roundRobin_visits_all (st : SysState) (ptype : Option ProxyType)
    (hne : GetAvailableProxies st ptype ≠ [])
    (hnd : ((GetAvailableProxies st ptype).map Proxy.id).Nodup) :
    ((rrRun st ptype (GetAvailableProxies st ptype).length).1).Perm
      ((GetAvailableProxies st ptype).map Proxy.id) ∧
    ((rrRun st ptype (GetAvailableProxies st ptype).length).1).Nodup := by
  set P := GetAvailableProxies st ptype with hPdef
  have hN : P.length ≠ 0 := fun h => hne (List.length_eq_zero.mp h)
  have hform := rrRun_formula ptype P hN P.length st
    ((st.cursors (rrKey ptype)).getD 0) hPdef.symm rfl
  set c := (st.cursors (rrKey ptype)).getD 0
  set g : Nat → Nat := fun i => (P.get ⟨(c + i) % P.length,
    Nat.mod_lt _ (Nat.pos_of_ne_zero hN)⟩).id with hg
  have hPnd : P.Nodup := List.Nodup.of_map Proxy.id hnd
  have hsub : (List.range P.length).map g ⊆ P.map Proxy.id := by
    intro x hx
    obtain ⟨i, _, hix⟩ := List.mem_map.mp hx
    exact hix ▸ List.mem_map_of_mem Proxy.id (List.get_mem P _ _)
  have hinj : ∀ i ∈ List.range P.length, ∀ j ∈ List.range P.length, g i = g j → i = j := by
    intro i hi j hj hgij
    have hi2 := List.mem_range.mp hi
    have hj2 := List.mem_range.mp hj
    have hgets : P.get ⟨(c + i) % P.length, Nat.mod_lt _ (Nat.pos_of_ne_zero hN)⟩ =
        P.get ⟨(c + j) % P.length, Nat.mod_lt _ (Nat.pos_of_ne_zero hN)⟩ :=
      List.inj_on_of_nodup_map hnd (List.get_mem P _ _) (List.get_mem P _ _) hgij
    have hidx : (c + i) % P.length = (c + j) % P.length :=
      Fin.mk_eq_mk.mp ((List.Nodup.get_inj_iff hPnd).mp hgets)
    have hmod : i % P.length = j % P.length := Nat.ModEq.add_left_cancel' c hidx
    rw [Nat.mod_eq_of_lt hi2, Nat.mod_eq_of_lt hj2] at hmod
    exact hmod
  have hvndp : ((List.range P.length).map g).Nodup :=
    List.Nodup.map_on hinj (List.nodup_range P.length)
  have hlen : (P.map Proxy.id).length ≤ ((List.range P.length).map g).length := by
    rw [List.length_map, List.length_map, List.length_range]
  have hperm : ((List.range P.length).map g).Perm (P.map Proxy.id) :=
    (List.Nodup.subperm hvndp hsub).perm_of_length_le hlen
  rw [hform]
  exact ⟨hperm, hvndp⟩

/-! ## Concrete example data for the witnesses -/

/-- Candidate A of the spec's `auto` example: 0 assignments, 250 ms. -/
def wA : Proxy :=
  { id := 1, name := "A", ptype := "http", host := "a.example", port := 8080,
    status := .active, healthCheckSuccess := true, responseTimeMs := 250,
    lastHealthCheck := some 5, updatedAt := 0 }

/-- Candidate B of the spec's `auto` example: 1 assignment, 50 ms. -/
def wB : Proxy :=
  { id := 2, name := "B", ptype := "http", host := "b.example", port := 8081,
    status := .active, healthCheckSuccess := true, responseTimeMs := 50,
    lastHealthCheck := some 6, updatedAt := 0 }

/-- A proxy whose last health check failed (zero assignments). -/
def wBad : Proxy :=
  { id := 3, name := "C", ptype := "http", host := "c.example", port := 8082,
    status := .active, healthCheckSuccess := false, responseTimeMs := 10,
    lastHealthCheck := some 7, updatedAt := 0 }

/-- A quarantined proxy (`status = error`). -/
def wErr : Proxy :=
  { id := 4, name := "D", ptype := "http", host := "d.example", port := 8083,
    status := .error, healthCheckSuccess := true, responseTimeMs := 40,
    lastHealthCheck := some 8, updatedAt := 0 }

/-- State with candidates A and B, where one account is assigned to B. -/
def stAuto : SysState :=
  { proxies := [wA, wB]
    accounts := [{ id := 10, proxyId := some 2, updatedAt := 0 }]
    failures := fun _ => none
    cursors := fun _ => none
    healthSnaps := fun _ => none
    alerts := [] }

/-- State with an unhealthy zero-assignment proxy and a healthy used one. -/
def stLeast : SysState :=
  { proxies := [wBad, wB]
    accounts := [{ id := 10, proxyId := some 2, updatedAt := 0 }]
    failures := fun _ => none
    cursors := fun _ => none
    healthSnaps := fun _ => none
    alerts := [] }

/-- State whose only proxy has a failed health check: empty candidate pool. -/
def stEmpty : SysState :=
  { proxies := [wBad]
    accounts := []
    failures := fun _ => none
    cursors := fun _ => none
    healthSnaps := fun _ => none
    alerts := [] }

/-- State whose only proxy is quarantined, with a stale failure counter. -/
def stErrOnly : SysState :=
  { proxies := [wErr]
    accounts := []
    failures := fun j => if j = 4 then some 7 else none
    cursors := fun _ => none
    healthSnaps := fun _ => none
    alerts := [] }

/-- Probe times used by the witnesses. -/
def tsW : Nat → Nat := fun k => 100 + k

/-- An all-failures probe oracle for the witnesses. -/
def orcW : Nat → Proxy → ProbeOutcome := fun _ _ =>
  { success := false, latencyMs := 0, errMsg := "connection refused" }

/-- The `manual` strategy string. -/
def manualStr : String := "manual"

/-- The empty strategy string. -/
def emptyStr : String := ""

/-! ## Witnesses -/

theorem quarantine_after_maxFailures_witness :
    (failSteps 3 wA tsW 3 stAuto).failures wA.id = none ∧
    (failSteps 3 wA tsW 3 stAuto).alerts =
      ⟨wA.id, wA.name, wA.host, wA.port, 3, tsW 2⟩ :: stAuto.alerts ∧
    (failSteps 3 wA tsW 3 stAuto).proxies =
      updateRows wA.id (fun q => { q with status := .error, updatedAt := tsW 2 })
        stAuto.proxies :=
  quarantine_after_maxFailures 3 stAuto wA tsW (by decide) rfl

theorem success_resets_and_recovers_witness :
    (handleProxySuccess stErrOnly wErr 9).failures wErr.id = none ∧
    (handleProxySuccess stErrOnly wErr 9).proxies =
      updateRows wErr.id (fun q => { q with status := .active, updatedAt := 9 })
        stErrOnly.proxies :=
  ⟨(success_resets_and_recovers stErrOnly wErr 9).1,
    (success_resets_and_recovers stErrOnly wErr 9).2.1 rfl⟩

theorem quarantined_proxy_never_reprobed_witness :
    getProxyById (sweepN 3 orcW tsW 4 stErrOnly) wErr.id = some wErr ∧
    wErr ∉ getActiveProxies (sweepN 3 orcW tsW 4 stErrOnly) :=
  quarantined_proxy_never_reprobed 3 orcW tsW stErrOnly wErr (by decide) rfl rfl 4

theorem autoStrategy_minimizes_witness :
    selectBestProxy stAuto none = .ok 2 ∧
    ∃ p ∈ availCands stAuto none, p.id = 2 ∧
      ∀ q ∈ availCands stAuto none,
        assignedCount stAuto.accounts p.id * 100 + p.responseTimeMs ≤
          assignedCount stAuto.accounts q.id * 100 + q.responseTimeMs :=
  ⟨rfl, autoStrategy_minimizes stAuto none 2 rfl⟩

theorem roundRobin_visits_all_witness :
    ((rrRun stAuto none (GetAvailableProxies stAuto none).length).1).Perm
      ((GetAvailableProxies stAuto none).map Proxy.id) ∧
    ((rrRun stAuto none (GetAvailableProxies stAuto none).length).1).Nodup :=
  roundRobin_visits_all stAuto none (by decide) (by decide)

theorem leastUsed_healthy_and_minimal_witness :
    wBad.healthCheckSuccess = false ∧ assignedCount stLeast.accounts wBad.id = 0 ∧
    selectLeastUsedProxy stLeast none = .ok 2 ∧
    ∃ p ∈ availCands stLeast none, p.id = 2 ∧ p.status = .active ∧
      p.healthCheckSuccess = true ∧
      ∀ q ∈ availCands stLeast none,
        assignedCount stLeast.accounts p.id < assignedCount stLeast.accounts q.id ∨
          (assignedCount stLeast.accounts p.id = assignedCount stLeast.accounts q.id ∧
            p.responseTimeMs ≤ q.responseTimeMs) :=
  ⟨rfl, rfl, rfl, leastUsed_healthy_and_minimal stLeast none 2 rfl⟩

theorem empty_pool_errors_witness :
    availCands stEmpty none = [] ∧
    (selectLeastUsedProxy stEmpty none = .error noProxyMsg ∧
      selectFastestProxy stEmpty none = .error noProxyMsg ∧
      selectBestProxy stEmpty none = .error noProxyMsg ∧
      selectRoundRobinProxy stEmpty none = .error noProxyMsg) :=
  ⟨rfl, empty_pool_errors stEmpty none rfl⟩

theorem assignProxy_explicit_witness :
    (AssignProxy stAuto ⟨10, some 1, none, emptyStr⟩ 5).1 =
        .ok ⟨10, 1, wA.name, wA.host, wA.port, 5⟩ ∧
    (AssignProxy stAuto ⟨10, some 1, none, emptyStr⟩ 5).2 =
      assignAccountProxy stAuto 10 1 5 ∧
    (AssignProxy stAuto ⟨10, some 99, none, emptyStr⟩ 5).1 = .error notFoundExplicitMsg ∧
    (AssignProxy stAuto ⟨10, some 99, none, emptyStr⟩ 5).2 = stAuto :=
  ⟨((assignProxy_explicit stAuto 10 1 5 none emptyStr).1 wA rfl).1,
    ((assignProxy_explicit stAuto 10 1 5 none emptyStr).1 wA rfl).2,
    ((assignProxy_explicit stAuto 10 99 5 none emptyStr).2 rfl).1,
    ((assignProxy_explicit stAuto 10 99 5 none emptyStr).2 rfl).2⟩

theorem unknown_strategy_defaults_to_auto_witness :
    selectProxyByStrategy stAuto manualStr none =
      (selectBestProxy stAuto none).map (fun pid => (pid, stAuto)) :=
  unknown_strategy_defaults_to_auto stAuto manualStr none (by decide) (by decide) (by decide)

end Bsky
